import Mathlib

/-!
Verification of the WTEC gateway (src/main.py): a polling bridge that reads
sensor documents from source endpoints, derives a per-source motion-change
flag, normalizes the document into a fixed payload and pushes it to a
destination endpoint.

The Python program is shallowly embedded:
* JSON / Python values are modelled by `JsonValue` (numbers as `Int`);
  Python `None` and JSON `null` are both `JsonValue.null`.
* Python truthiness is `truthy`, attribute/key/type errors are `PyErr`
  carried in `Except`.
* Python dicts keyed by arbitrary (hashable) values are association lists
  with `dictInsert` / `dictGet?` mirroring Python insertion-order update
  semantics; JSON objects are `List (String × JsonValue)` with
  `lookupField`.
* The network is abstracted by a `FetchOutcome` (connection error, or a
  status code together with an optionally well-formed parsed body) per
  fetch, and a `PushOutcome` per push; the functions below reproduce what
  main.py does with those outcomes.
-/

namespace WTEC

/-- JSON / Python values as produced by json.load and handled by main.py.
Numbers are modelled as integers. -/
inductive JsonValue where
  | null
  | bool (b : Bool)
  | num (n : Int)
  | str (s : String)
  | arr (xs : List JsonValue)
  | obj (fields : List (String × JsonValue))

mutual

/-- Decidable equality on JsonValue, by structural recursion (the deriving
handler does not treat nested inductives). -/
def jsonDecEq : (a b : JsonValue) → Decidable (a = b)
  | .null, .null => .isTrue rfl
  | .bool a, .bool b =>
    if h : a = b then .isTrue (by rw [h]) else .isFalse (fun k => h (by injection k))
  | .num a, .num b =>
    if h : a = b then .isTrue (by rw [h]) else .isFalse (fun k => h (by injection k))
  | .str a, .str b =>
    if h : a = b then .isTrue (by rw [h]) else .isFalse (fun k => h (by injection k))
  | .arr xs, .arr ys =>
    match jsonDecEqList xs ys with
    | .isTrue h => .isTrue (by rw [h])
    | .isFalse h => .isFalse (fun k => h (by injection k))
  | .obj fs, .obj gs =>
    match jsonDecEqObj fs gs with
    | .isTrue h => .isTrue (by rw [h])
    | .isFalse h => .isFalse (fun k => h (by injection k))
  | .null, .bool _ => .isFalse nofun
  | .null, .num _ => .isFalse nofun
  | .null, .str _ => .isFalse nofun
  | .null, .arr _ => .isFalse nofun
  | .null, .obj _ => .isFalse nofun
  | .bool _, .null => .isFalse nofun
  | .bool _, .num _ => .isFalse nofun
  | .bool _, .str _ => .isFalse nofun
  | .bool _, .arr _ => .isFalse nofun
  | .bool _, .obj _ => .isFalse nofun
  | .num _, .null => .isFalse nofun
  | .num _, .bool _ => .isFalse nofun
  | .num _, .str _ => .isFalse nofun
  | .num _, .arr _ => .isFalse nofun
  | .num _, .obj _ => .isFalse nofun
  | .str _, .null => .isFalse nofun
  | .str _, .bool _ => .isFalse nofun
  | .str _, .num _ => .isFalse nofun
  | .str _, .arr _ => .isFalse nofun
  | .str _, .obj _ => .isFalse nofun
  | .arr _, .null => .isFalse nofun
  | .arr _, .bool _ => .isFalse nofun
  | .arr _, .num _ => .isFalse nofun
  | .arr _, .str _ => .isFalse nofun
  | .arr _, .obj _ => .isFalse nofun
  | .obj _, .null => .isFalse nofun
  | .obj _, .bool _ => .isFalse nofun
  | .obj _, .num _ => .isFalse nofun
  | .obj _, .str _ => .isFalse nofun
  | .obj _, .arr _ => .isFalse nofun

/-- Decidable equality on lists of JsonValues. -/
def jsonDecEqList : (xs ys : List JsonValue) → Decidable (xs = ys)
  | [], [] => .isTrue rfl
  | [], _ :: _ => .isFalse nofun
  | _ :: _, [] => .isFalse nofun
  | x :: xs, y :: ys =>
    match jsonDecEq x y with
    | .isTrue h1 =>
      match jsonDecEqList xs ys with
      | .isTrue h2 => .isTrue (by rw [h1, h2])
      | .isFalse h2 => .isFalse (fun k => h2 (by injection k))
    | .isFalse h1 => .isFalse (fun k => h1 (by injection k))

/-- Decidable equality on JSON object field lists. -/
def jsonDecEqObj : (xs ys : List (String × JsonValue)) → Decidable (xs = ys)
  | [], [] => .isTrue rfl
  | [], _ :: _ => .isFalse nofun
  | _ :: _, [] => .isFalse nofun
  | (k, v) :: xs, (l, w) :: ys =>
    if hk : k = l then
      match jsonDecEq v w with
      | .isTrue h1 =>
        match jsonDecEqObj xs ys with
        | .isTrue h2 => .isTrue (by rw [hk, h1, h2])
        | .isFalse h2 => .isFalse (fun q => h2 (by injection q))
      | .isFalse h1 =>
        .isFalse (fun q => by
          injection q with q1 q2
          exact h1 (congrArg Prod.snd q1))
    else
      .isFalse (fun q => by
        injection q with q1 q2
        exact hk (congrArg Prod.fst q1))

end

instance : DecidableEq JsonValue := jsonDecEq

/-- Decidable equality for Except results, used to evaluate the embedded
functions on concrete inputs. -/
instance {ε α : Type} [DecidableEq ε] [DecidableEq α] : DecidableEq (Except ε α)
  | .ok a, .ok b =>
    if h : a = b then .isTrue (by rw [h]) else .isFalse (fun k => h (by injection k))
  | .error a, .error b =>
    if h : a = b then .isTrue (by rw [h]) else .isFalse (fun k => h (by injection k))
  | .ok _, .error _ => .isFalse nofun
  | .error _, .ok _ => .isFalse nofun

/-- Python exceptions that main.py can raise and does not catch. -/
inductive PyErr where
  | attributeError
  | keyError
  | typeError
deriving DecidableEq

/-- Python truthiness (`if data:`) for the modelled values. -/
def truthy : JsonValue → Bool
  | .null => false
  | .bool b => b
  | .num n => decide (n ≠ 0)
  | .str s => decide (s ≠ "")
  | .arr xs => !xs.isEmpty
  | .obj fs => !fs.isEmpty

/-- Key lookup in a JSON object (first binding wins; the documents main.py
receives have unique keys). -/
def lookupField (fs : List (String × JsonValue)) (k : String) : Option JsonValue :=
  (fs.find? (fun p => p.1 = k)).map Prod.snd

/-- Python `v.get(k, default)`: defined on dicts, AttributeError otherwise. -/
def pyGetD (v : JsonValue) (k : String) (dflt : JsonValue) : Except PyErr JsonValue :=
  match v with
  | .obj fs => .ok ((lookupField fs k).getD dflt)
  | _ => .error .attributeError

/-- Python `v[k]` with a string key: KeyError on a dict without the key,
TypeError on non-dicts. -/
def pyIndex (v : JsonValue) (k : String) : Except PyErr JsonValue :=
  match v with
  | .obj fs =>
    match lookupField fs k with
    | some w => .ok w
    | none => .error .keyError
  | _ => .error .typeError

/-- Python dicts keyed by JsonValues (url_mapping, prev_motion):
updating an existing key keeps its position, a new key is appended,
matching Python dict insertion-order semantics. -/
def dictInsert (m : List (JsonValue × JsonValue)) (k v : JsonValue) :
    List (JsonValue × JsonValue) :=
  if m.any (fun p => p.1 = k) then
    m.map (fun p => if p.1 = k then (k, v) else p)
  else
    m ++ [(k, v)]

/-- Python `m.get(k)` on a JsonValue-keyed dict. -/
def dictGet? (m : List (JsonValue × JsonValue)) (k : JsonValue) : Option JsonValue :=
  (m.find? (fun p => p.1 = k)).map Prod.snd

/-- The keys of a JsonValue-keyed dict in insertion order. -/
def dictKeys (m : List (JsonValue × JsonValue)) : List JsonValue :=
  m.map Prod.fst

/-- `dict(zip(ks, vs))` from main.py line 68: pairs are inserted left to
right, so a duplicated key keeps the value of its last occurrence. -/
def dictOfZip (ks vs : List JsonValue) : List (JsonValue × JsonValue) :=
  (List.zip ks vs).foldl (fun m kv => dictInsert m kv.1 kv.2) []

/-- `prev_motion = \x7burl: None for url in source_urls\x7d` (main.py line 70). -/
def initPrevMotion (sources : List JsonValue) : List (JsonValue × JsonValue) :=
  sources.foldl (fun m u => dictInsert m u .null) []

/-- motion_conversion (main.py lines 35-39): 1 when the values differ,
0 otherwise. -/
def motion_conversion (curr prev : JsonValue) : Int :=
  if curr ≠ prev then 1 else 0

/-- Lines 84-88 of main.py acting on one stored entry: seed a `None`
(absent) previous value with the current one, convert, and advance the
stored value to the current reading. Returns (motion flag, new stored
value). -/
def motionStep (stored curr : JsonValue) : Int × JsonValue :=
  let p := if stored = .null then curr else stored
  (motion_conversion curr p, curr)

/-- `data.get('sensorStats', \x7b\x7d).get('motion', \x7b\x7d).get('instant')`
(main.py line 81). -/
def getMotionInstant (data : JsonValue) : Except PyErr JsonValue :=
  match pyGetD data "sensorStats" (.obj []) with
  | .error e => .error e
  | .ok s =>
    match pyGetD s "motion" (.obj []) with
    | .error e => .error e
    | .ok m => pyGetD m "instant" .null

/-- The ten non-motion keys of the outbound payload, in the order the dict
literal of main.py lines 92-104 lists them. -/
def tandemFields : List String :=
  ["power", "ceilingTemperature", "roomTemperature", "illuminance", "brightness",
   "humidity", "pressure", "indoorAirQuality", "co2", "voc"]

/-- `sensor_stats.get(f, \x7b\x7d).get('instant')` for one payload field. -/
def fieldInstant (stats : JsonValue) (f : String) : Except PyErr JsonValue :=
  match pyGetD stats f (.obj []) with
  | .error e => .error e
  | .ok v => pyGetD v "instant" .null

/-- Builds the non-motion part of the datapush dict literal, left to right
as Python evaluates it. -/
def buildFields (stats : JsonValue) : List String → Except PyErr (List (String × JsonValue))
  | [] => .ok []
  | f :: rest =>
    match fieldInstant stats f with
    | .error e => .error e
    | .ok v =>
      match buildFields stats rest with
      | .error e => .error e
      | .ok tail => .ok ((f, v) :: tail)

/-- The datapush dict of main.py lines 91-104: the motion key first, then
the ten instant extractions. -/
def buildDatapush (data : JsonValue) (motion_detected : Int) :
    Except PyErr (List (String × JsonValue)) :=
  match pyGetD data "sensorStats" (.obj []) with
  | .error e => .error e
  | .ok sensor_stats =>
    match buildFields sensor_stats tandemFields with
    | .error e => .error e
    | .ok fields => .ok (("motion", .num motion_detected) :: fields)

/-- The environment's answer to one requests.get call: a connection-level
error, or a status code with (some body) when the body parsed as JSON and
none when parsing failed. -/
inductive FetchOutcome where
  | connError
  | response (status : Nat) (body : Option JsonValue)
deriving DecidableEq

/-- The environment's answer to one requests.post call. -/
inductive PushOutcome where
  | success
  | failure
deriving DecidableEq

/-- What fetch_data_from_source returns for a given network outcome:
raise_for_status turns 4xx/5xx into a caught RequestException (None), a
connection error or a body that fails to parse is likewise caught
(requests raises its JSONDecodeError, a RequestException, on a malformed
body), otherwise the parsed body is returned. -/
def fetchResult : FetchOutcome → Option JsonValue
  | .connError => none
  | .response status body =>
    if 400 ≤ status ∧ status ≤ 599 then none else body

/-- fetch_data_from_source (main.py lines 25-33): evaluating
`secrets["user"]` and `secrets["password"]` can raise KeyError/TypeError
outside the except clause; every RequestException is caught and yields
None. -/
def fetch_data_from_source (secrets : JsonValue) (o : FetchOutcome) :
    Except PyErr (Option JsonValue) :=
  match pyIndex secrets "user" with
  | .error e => .error e
  | .ok _ =>
    match pyIndex secrets "password" with
    | .error e => .error e
    | .ok _ => .ok (fetchResult o)

/-- What happened on one binding in one cycle. -/
inductive BindingEvent where
  | noData
  | noMotion
  | pushed (flag : Int) (payload : List (String × JsonValue))
      (tandem : JsonValue) (po : PushOutcome)
  | noTandem (flag : Int) (payload : List (String × JsonValue))
deriving DecidableEq

/-- One iteration of the inner for-loop of main (main.py lines 75-117) for
one source URL: resolve the tandem URL, fetch, and - when the data is
truthy and carries a motion instant - evaluate motion, advance the state
table, build the payload and attempt the push. Push failures are caught
inside push_data_to_tandem, so the push outcome never affects the result
state. -/
def processBinding (secrets : JsonValue) (tandem_urls : List JsonValue)
    (url_mapping prev : List (JsonValue × JsonValue)) (source_url : JsonValue)
    (fo : FetchOutcome) (po : PushOutcome) :
    Except PyErr (List (JsonValue × JsonValue) × BindingEvent) :=
  let tandem_url := (dictGet? url_mapping source_url).getD .null
  match fetch_data_from_source secrets fo with
  | .error e => .error e
  | .ok none => .ok (prev, .noData)
  | .ok (some data) =>
    if truthy data then
      match getMotionInstant data with
      | .error e => .error e
      | .ok curr_motion =>
        if curr_motion ≠ JsonValue.null then
          match dictGet? prev source_url with
          | none => .error .keyError
          | some p0 =>
            let step := motionStep p0 curr_motion
            let prev2 := dictInsert prev source_url step.2
            match buildDatapush data step.1 with
            | .error e => .error e
            | .ok datapush =>
              if tandem_url ∈ tandem_urls then
                .ok (prev2, .pushed step.1 datapush tandem_url po)
              else
                .ok (prev2, .noTandem step.1 datapush)
        else
          .ok (prev, .noMotion)
    else
      .ok (prev, .noData)

/-- One full cycle (the for-loop body of the while-loop), threading the
state table through the bindings in list order; an uncaught Python
exception aborts the whole process, modelled by the Except error. The
Nat argument is the position of the current binding, used to index the
per-binding network outcomes. -/
def runCycleAux (secrets : JsonValue) (tandem_urls : List JsonValue)
    (url_mapping : List (JsonValue × JsonValue))
    (env : Nat → FetchOutcome × PushOutcome) :
    List JsonValue → Nat → List (JsonValue × JsonValue) →
    Except PyErr (List (JsonValue × JsonValue) × List BindingEvent)
  | [], _, prev => .ok (prev, [])
  | u :: rest, i, prev =>
    match processBinding secrets tandem_urls url_mapping prev u (env i).1 (env i).2 with
    | .error e => .error e
    | .ok r =>
      match runCycleAux secrets tandem_urls url_mapping env rest (i + 1) r.1 with
      | .error e => .error e
      | .ok rr => .ok (rr.1, r.2 :: rr.2)

/-- One full cycle over the configured source list. -/
def runCycle (secrets : JsonValue) (tandem_urls : List JsonValue)
    (url_mapping : List (JsonValue × JsonValue))
    (env : Nat → FetchOutcome × PushOutcome) (sources : List JsonValue)
    (prev : List (JsonValue × JsonValue)) :
    Except PyErr (List (JsonValue × JsonValue) × List BindingEvent) :=
  runCycleAux secrets tandem_urls url_mapping env sources 0 prev

/-- True when an Except result is a normal return. -/
def exceptOk {ε α : Type} : Except ε α → Bool
  | .ok _ => true
  | .error _ => false

/-- The secrets dict carries both credential keys, so evaluating
`secrets["user"]` and `secrets["password"]` inside
fetch_data_from_source cannot raise. -/
def credsOk (secrets : JsonValue) : Bool :=
  exceptOk (pyIndex secrets "user") && exceptOk (pyIndex secrets "password")

/-- A fetched result that does not make the body of the for-loop raise:
either there is no (truthy) data, or the motion extraction works and -
when a motion value is present - so does the payload construction. -/
def dataNoCrash : Option JsonValue → Bool
  | none => true
  | some data =>
    if truthy data then
      match getMotionInstant data with
      | .error _ => false
      | .ok curr =>
        if curr = JsonValue.null then true
        else exceptOk (buildDatapush data 0)
    else true

/-- read_secrets (main.py lines 12-21): a missing or undecodable
secrets.json yields the empty dict; otherwise the parsed document. The
Option argument is none exactly when open or json.load failed. -/
def read_secrets (file : Option JsonValue) : JsonValue :=
  file.getD (.obj [])

/-- Python len() for the values that can reach it here. -/
def pyLen : JsonValue → Except PyErr Nat
  | .arr xs => .ok xs.length
  | .str s => .ok s.length
  | .obj fs => .ok fs.length
  | _ => .error .typeError

/-- Python iteration (zip / for) over a value: lists yield elements,
strings their characters, dicts their keys; other values raise TypeError. -/
def pyIterate : JsonValue → Except PyErr (List JsonValue)
  | .arr xs => .ok xs
  | .str s => .ok (s.data.map (fun c => .str (String.mk [c])))
  | .obj fs => .ok (fs.map (fun p => .str p.1))
  | _ => .error .typeError

/-- How far main gets before the while-loop. -/
inductive StartupResult where
  | exited
  | crash (e : PyErr)
  | looping (source_urls tandem_urls : List JsonValue)
      (url_mapping prev_motion : List (JsonValue × JsonValue))
deriving DecidableEq

/-- main.py lines 51-70: load secrets, the three fail-fast checks, then
the url mapping and the fresh prev_motion table. `.exited` is a clean
return before any cycling; `.crash` is an uncaught exception; `.looping`
carries everything the while-loop starts from. -/
def mainStartup (file : Option JsonValue) : StartupResult :=
  let secrets := read_secrets file
  if truthy secrets then
    match pyGetD secrets "source_urls" (.arr []) with
    | .error e => .crash e
    | .ok su =>
      match pyGetD secrets "tandem_urls" (.arr []) with
      | .error e => .crash e
      | .ok tu =>
        if truthy su ∧ truthy tu then
          match pyLen su with
          | .error e => .crash e
          | .ok ls =>
            match pyLen tu with
            | .error e => .crash e
            | .ok lt =>
              if ls > lt then .exited
              else
                match pyIterate su with
                | .error e => .crash e
                | .ok ss =>
                  match pyIterate tu with
                  | .error e => .crash e
                  | .ok ts =>
                    .looping ss ts (dictOfZip ss ts) (initPrevMotion ss)
        else .exited
  else .exited

/-! Helper lemmas about the dict model. -/

theorem mem_dictKeys (m : List (JsonValue × JsonValue)) (k : JsonValue) :
    k ∈ dictKeys m ↔ ∃ p, p ∈ m ∧ p.1 = k := by
  simp [dictKeys, List.mem_map]

theorem any_key_eq_true_of_mem (m : List (JsonValue × JsonValue)) (k : JsonValue)
    (h : k ∈ dictKeys m) : m.any (fun p => decide (p.1 = k)) = true := by
  rw [List.any_eq_true]
  obtain ⟨p, hp, he⟩ := (mem_dictKeys m k).1 h
  exact ⟨p, hp, by simp [he]⟩

theorem dictKeys_dictInsert_of_mem (m : List (JsonValue × JsonValue)) (k v : JsonValue)
    (h : k ∈ dictKeys m) : dictKeys (dictInsert m k v) = dictKeys m := by
  unfold dictInsert
  rw [if_pos (any_key_eq_true_of_mem m k h)]
  simp only [dictKeys, List.map_map]
  refine List.map_congr_left ?_
  intro p _
  by_cases hc : p.1 = k
  · simp [Function.comp, hc]
  · simp [Function.comp, hc]

theorem mem_dictKeys_dictInsert_self (m : List (JsonValue × JsonValue)) (k v : JsonValue) :
    k ∈ dictKeys (dictInsert m k v) := by
  unfold dictInsert
  by_cases hany : m.any (fun p => decide (p.1 = k)) = true
  · rw [if_pos hany]
    obtain ⟨p, hp, he⟩ := List.any_eq_true.mp hany
    rw [mem_dictKeys]
    refine ⟨(k, v), List.mem_map.mpr ⟨p, hp, ?_⟩, rfl⟩
    simp [of_decide_eq_true he]
  · rw [if_neg hany, mem_dictKeys]
    exact ⟨(k, v), by simp, rfl⟩

theorem mem_dictKeys_dictInsert (m : List (JsonValue × JsonValue)) (k v k' : JsonValue)
    (h : k' ∈ dictKeys m) : k' ∈ dictKeys (dictInsert m k v) := by
  by_cases hk : k' = k
  · subst hk
    exact mem_dictKeys_dictInsert_self m k' v
  · unfold dictInsert
    obtain ⟨p, hp, he⟩ := (mem_dictKeys m k').1 h
    by_cases hany : m.any (fun p => decide (p.1 = k)) = true
    · rw [if_pos hany, mem_dictKeys]
      refine ⟨p, List.mem_map.mpr ⟨p, hp, ?_⟩, he⟩
      rw [if_neg]
      rw [he]
      exact hk
    · rw [if_neg hany, mem_dictKeys]
      exact ⟨p, by simp [hp], he⟩

theorem mem_dictInsert (m : List (JsonValue × JsonValue)) (k v : JsonValue)
    (p : JsonValue × JsonValue) (h : p ∈ dictInsert m k v) : p ∈ m ∨ p = (k, v) := by
  unfold dictInsert at h
  by_cases hany : m.any (fun p => decide (p.1 = k)) = true
  · rw [if_pos hany] at h
    obtain ⟨q, hq, he⟩ := List.mem_map.mp h
    by_cases hc : q.1 = k
    · right
      rw [if_pos hc] at he
      exact he.symm
    · left
      rw [if_neg hc] at he
      exact he ▸ hq
  · rw [if_neg hany] at h
    rcases List.mem_append.mp h with h | h
    · exact Or.inl h
    · right
      simpa using h

theorem length_dictInsert_le (m : List (JsonValue × JsonValue)) (k v : JsonValue) :
    (dictInsert m k v).length ≤ m.length + 1 := by
  unfold dictInsert
  split
  · simp
  · simp

theorem dictGet?_of_mem_keys (m : List (JsonValue × JsonValue)) (k : JsonValue)
    (h : k ∈ dictKeys m) : ∃ v, dictGet? m k = some v ∧ (k, v) ∈ m := by
  have hsome : (m.find? (fun p => decide (p.1 = k))).isSome := by
    rw [List.find?_isSome]
    obtain ⟨p, hp, he⟩ := (mem_dictKeys m k).1 h
    exact ⟨p, hp, by simp [he]⟩
  obtain ⟨q, hq⟩ := Option.isSome_iff_exists.mp hsome
  have hmem := List.mem_of_find?_eq_some hq
  have hpred : q.1 = k := by
    have := List.find?_some hq
    simpa using this
  refine ⟨q.2, ?_, ?_⟩
  · simp [dictGet?, hq]
  · rw [← hpred]
    exact hmem

theorem dictGet?_map_update (m : List (JsonValue × JsonValue)) (k v : JsonValue)
    (h : m.any (fun p => decide (p.1 = k)) = true) :
    dictGet? (m.map (fun p => if p.1 = k then (k, v) else p)) k = some v := by
  induction m with
  | nil => simp at h
  | cons p rest ih =>
    by_cases hc : p.1 = k
    · simp [dictGet?, List.find?, hc]
    · have h' : rest.any (fun p => decide (p.1 = k)) = true := by
        rcases List.any_eq_true.mp h with ⟨q, hq, he⟩
        rcases List.mem_cons.mp hq with rfl | hq
        · exact absurd (of_decide_eq_true he) hc
        · exact List.any_eq_true.mpr ⟨q, hq, he⟩
      have := ih h'
      simpa [dictGet?, List.find?, hc] using this

theorem dictGet?_append_single (m : List (JsonValue × JsonValue)) (k v : JsonValue)
    (h : m.any (fun p => decide (p.1 = k)) = false) :
    dictGet? (m ++ [(k, v)]) k = some v := by
  induction m with
  | nil => simp [dictGet?, List.find?]
  | cons p rest ih =>
    rw [List.any_cons, Bool.or_eq_false_iff] at h
    rw [List.cons_append]
    have : dictGet? (rest ++ [(k, v)]) k = some v := ih h.2
    simpa [dictGet?, List.find?, h.1] using this

theorem dictGet?_dictInsert_self (m : List (JsonValue × JsonValue)) (k v : JsonValue) :
    dictGet? (dictInsert m k v) k = some v := by
  unfold dictInsert
  by_cases hany : m.any (fun p => decide (p.1 = k)) = true
  · rw [if_pos hany]
    exact dictGet?_map_update m k v hany
  · rw [if_neg hany]
    refine dictGet?_append_single m k v ?_
    cases he : m.any (fun p => decide (p.1 = k)) with
    | true => exact absurd he hany
    | false => rfl

theorem dictGet?_map_update_ne (m : List (JsonValue × JsonValue)) (u c k : JsonValue)
    (h : k ≠ u) :
    dictGet? (m.map (fun p => if p.1 = u then (u, c) else p)) k = dictGet? m k := by
  induction m with
  | nil => rfl
  | cons p rest ih =>
    unfold dictGet? at ih ⊢
    rw [List.map_cons]
    by_cases hc : p.1 = u
    · rw [if_pos hc]
      rw [List.find?_cons_of_neg, List.find?_cons_of_neg]
      · exact ih
      · simp [hc]
        exact fun he => h he.symm
      · simp
        exact fun he => h he.symm
    · rw [if_neg hc]
      by_cases hk : p.1 = k
      · rw [List.find?_cons_of_pos, List.find?_cons_of_pos]
        · simp [hk]
        · simp [hk]
      · rw [List.find?_cons_of_neg, List.find?_cons_of_neg]
        · exact ih
        · simp [hk]
        · simp [hk]

theorem dictGet?_append_single_ne (m : List (JsonValue × JsonValue)) (u c k : JsonValue)
    (h : k ≠ u) : dictGet? (m ++ [(u, c)]) k = dictGet? m k := by
  induction m with
  | nil =>
    unfold dictGet?
    rw [List.nil_append, List.find?_cons_of_neg]
    simp
    exact fun he => h he.symm
  | cons p rest ih =>
    unfold dictGet? at ih ⊢
    rw [List.cons_append]
    by_cases hk : p.1 = k
    · rw [List.find?_cons_of_pos, List.find?_cons_of_pos]
      · simp [hk]
      · simp [hk]
    · rw [List.find?_cons_of_neg, List.find?_cons_of_neg]
      · exact ih
      · simp [hk]
      · simp [hk]

theorem dictGet?_dictInsert_ne (m : List (JsonValue × JsonValue)) (u c k : JsonValue)
    (h : k ≠ u) : dictGet? (dictInsert m u c) k = dictGet? m k := by
  unfold dictInsert
  by_cases hany : m.any (fun p => decide (p.1 = u)) = true
  · rw [if_pos hany]
    exact dictGet?_map_update_ne m u c k h
  · rw [if_neg hany]
    exact dictGet?_append_single_ne m u c k h

theorem foldl_insert_keys (srcs : List JsonValue) (acc : List (JsonValue × JsonValue))
    (u : JsonValue) (h : u ∈ srcs ∨ u ∈ dictKeys acc) :
    u ∈ dictKeys (srcs.foldl (fun m w => dictInsert m w .null) acc) := by
  induction srcs generalizing acc with
  | nil =>
    rcases h with h | h
    · simp at h
    · simpa using h
  | cons s rest ih =>
    simp only [List.foldl_cons]
    apply ih
    rcases h with h | h
    · rcases List.mem_cons.mp h with rfl | h
      · exact Or.inr (mem_dictKeys_dictInsert_self acc u .null)
      · exact Or.inl h
    · exact Or.inr (mem_dictKeys_dictInsert acc s .null u h)

theorem foldl_insert_values_null (srcs : List JsonValue) (acc : List (JsonValue × JsonValue))
    (h : ∀ p ∈ acc, p.2 = JsonValue.null) :
    ∀ p ∈ srcs.foldl (fun m w => dictInsert m w .null) acc, p.2 = JsonValue.null := by
  induction srcs generalizing acc with
  | nil => simpa using h
  | cons s rest ih =>
    simp only [List.foldl_cons]
    apply ih
    intro p hp
    rcases mem_dictInsert acc s .null p hp with hp | hp
    · exact h p hp
    · rw [hp]

theorem foldl_insert_length_le (srcs : List JsonValue) (acc : List (JsonValue × JsonValue)) :
    (srcs.foldl (fun m w => dictInsert m w .null) acc).length ≤ acc.length + srcs.length := by
  induction srcs generalizing acc with
  | nil => simp
  | cons s rest ih =>
    simp only [List.foldl_cons, List.length_cons]
    calc (rest.foldl (fun m w => dictInsert m w .null) (dictInsert acc s .null)).length
        ≤ (dictInsert acc s .null).length + rest.length := ih (dictInsert acc s .null)
      _ ≤ (acc.length + 1) + rest.length :=
          Nat.add_le_add_right (length_dictInsert_le acc s .null) _
      _ = acc.length + (rest.length + 1) := by omega

theorem initPrevMotion_length_le (srcs : List JsonValue) :
    (initPrevMotion srcs).length ≤ srcs.length := by
  have := foldl_insert_length_le srcs []
  simpa [initPrevMotion] using this

theorem initPrevMotion_get (srcs : List JsonValue) (u : JsonValue) (h : u ∈ srcs) :
    dictGet? (initPrevMotion srcs) u = some JsonValue.null := by
  have hk : u ∈ dictKeys (initPrevMotion srcs) := foldl_insert_keys srcs [] u (Or.inl h)
  obtain ⟨v, hget, hmem⟩ := dictGet?_of_mem_keys _ _ hk
  have hv : v = JsonValue.null := foldl_insert_values_null srcs [] (by simp) (u, v) hmem
  rw [hget, hv]

/-! Helper lemmas about the embedded functions. -/

theorem exceptOk_exists {ε α : Type} (e : Except ε α) (h : exceptOk e = true) :
    ∃ x, e = .ok x := by
  cases e with
  | ok x => exact ⟨x, rfl⟩
  | error e => simp [exceptOk] at h

theorem fetch_ok (secrets : JsonValue) (o : FetchOutcome) (hc : credsOk secrets = true) :
    fetch_data_from_source secrets o = .ok (fetchResult o) := by
  unfold credsOk at hc
  rw [Bool.and_eq_true] at hc
  obtain ⟨h1, h2⟩ := hc
  unfold fetch_data_from_source
  cases hu : pyIndex secrets "user" with
  | error e => rw [hu] at h1; simp [exceptOk] at h1
  | ok _ =>
    cases hp : pyIndex secrets "password" with
    | error e => rw [hp] at h2; simp [exceptOk] at h2
    | ok _ => rfl

theorem buildDatapush_exceptOk (d : JsonValue) (f : Int) :
    exceptOk (buildDatapush d f) = exceptOk (buildDatapush d 0) := by
  cases h1 : pyGetD d "sensorStats" (.obj []) with
  | error e => simp [buildDatapush, h1]
  | ok s =>
    cases h2 : buildFields s tandemFields with
    | error e => simp [buildDatapush, h1, h2, exceptOk]
    | ok fs => simp [buildDatapush, h1, h2, exceptOk]

theorem processBinding_fetchFail (secrets : JsonValue) (tus : List JsonValue)
    (mapping prev : List (JsonValue × JsonValue)) (u : JsonValue)
    (fo : FetchOutcome) (po : PushOutcome)
    (hc : credsOk secrets = true) (hf : fetchResult fo = none) :
    processBinding secrets tus mapping prev u fo po = .ok (prev, .noData) := by
  unfold processBinding
  rw [fetch_ok secrets fo hc, hf]

theorem processBinding_falsy (secrets : JsonValue) (tus : List JsonValue)
    (mapping prev : List (JsonValue × JsonValue)) (u : JsonValue)
    (fo : FetchOutcome) (po : PushOutcome) (data : JsonValue)
    (hc : credsOk secrets = true) (hf : fetchResult fo = some data)
    (ht : truthy data = false) :
    processBinding secrets tus mapping prev u fo po = .ok (prev, .noData) := by
  unfold processBinding
  rw [fetch_ok secrets fo hc, hf]
  simp [ht]

theorem processBinding_noMotion (secrets : JsonValue) (tus : List JsonValue)
    (mapping prev : List (JsonValue × JsonValue)) (u : JsonValue)
    (fo : FetchOutcome) (po : PushOutcome) (data : JsonValue)
    (hc : credsOk secrets = true) (hf : fetchResult fo = some data)
    (ht : truthy data = true) (hm : getMotionInstant data = .ok .null) :
    processBinding secrets tus mapping prev u fo po = .ok (prev, .noMotion) := by
  unfold processBinding
  rw [fetch_ok secrets fo hc, hf]
  simp [ht, hm]

theorem processBinding_success (secrets : JsonValue) (tus : List JsonValue)
    (mapping prev : List (JsonValue × JsonValue)) (u : JsonValue)
    (fo : FetchOutcome) (po : PushOutcome) (data curr p0 : JsonValue)
    (pl : List (String × JsonValue))
    (hc : credsOk secrets = true) (hf : fetchResult fo = some data)
    (ht : truthy data = true) (hm : getMotionInstant data = .ok curr)
    (hn : curr ≠ JsonValue.null) (hp : dictGet? prev u = some p0)
    (hb : buildDatapush data (motionStep p0 curr).1 = .ok pl) :
    processBinding secrets tus mapping prev u fo po =
      .ok (dictInsert prev u curr,
        if (dictGet? mapping u).getD .null ∈ tus then
          .pushed (motionStep p0 curr).1 pl ((dictGet? mapping u).getD .null) po
        else
          .noTandem (motionStep p0 curr).1 pl) := by
  unfold processBinding
  rw [fetch_ok secrets fo hc, hf]
  simp only [ht, if_true, hm, hp, hb]
  simp only [hn, ne_eq, not_false_eq_true, if_true]
  split <;> rfl

theorem processBinding_state_shape (secrets : JsonValue) (tus : List JsonValue)
    (mapping prev : List (JsonValue × JsonValue)) (u : JsonValue)
    (fo : FetchOutcome) (po : PushOutcome) (prev2 : List (JsonValue × JsonValue))
    (ev : BindingEvent)
    (h : processBinding secrets tus mapping prev u fo po = .ok (prev2, ev)) :
    prev2 = prev ∨ ∃ c, prev2 = dictInsert prev u c := by
  unfold processBinding at h
  cases hfe : fetch_data_from_source secrets fo with
  | error e => rw [hfe] at h; exact absurd h (by simp)
  | ok dq =>
    rw [hfe] at h
    cases dq with
    | none =>
      simp at h
      exact Or.inl h.1.symm
    | some data =>
      cases ht : truthy data with
      | false => simp [ht] at h; exact Or.inl h.1.symm
      | true =>
        simp only [ht, if_true] at h
        cases hm : getMotionInstant data with
        | error e => rw [hm] at h; exact absurd h (by simp)
        | ok curr =>
          rw [hm] at h
          by_cases hn : curr = JsonValue.null
          · simp [hn] at h
            exact Or.inl h.1.symm
          · simp only [hn, ne_eq, not_false_eq_true, if_true] at h
            cases hp : dictGet? prev u with
            | none => rw [hp] at h; exact absurd h (by simp)
            | some p0 =>
              simp only [hp] at h
              cases hb : buildDatapush data (motionStep p0 curr).1 with
              | error e => simp only [hb] at h; exact absurd h (by simp)
              | ok pl =>
                simp only [hb] at h
                right
                refine ⟨(motionStep p0 curr).2, ?_⟩
                by_cases hT : (dictGet? mapping u).getD .null ∈ tus
                · simp [hT] at h
                  exact h.1.symm
                · simp [hT] at h
                  exact h.1.symm

theorem processBinding_keys (secrets : JsonValue) (tus : List JsonValue)
    (mapping prev : List (JsonValue × JsonValue)) (u : JsonValue)
    (fo : FetchOutcome) (po : PushOutcome) (prev2 : List (JsonValue × JsonValue))
    (ev : BindingEvent) (hu : u ∈ dictKeys prev)
    (h : processBinding secrets tus mapping prev u fo po = .ok (prev2, ev)) :
    dictKeys prev2 = dictKeys prev := by
  rcases processBinding_state_shape secrets tus mapping prev u fo po prev2 ev h with h2 | ⟨c, h2⟩
  · rw [h2]
  · rw [h2]
    exact dictKeys_dictInsert_of_mem prev u c hu

theorem processBinding_frame (secrets : JsonValue) (tus : List JsonValue)
    (mapping prev : List (JsonValue × JsonValue)) (u : JsonValue)
    (fo : FetchOutcome) (po : PushOutcome) (prev2 : List (JsonValue × JsonValue))
    (ev : BindingEvent) (k : JsonValue) (hk : k ≠ u)
    (h : processBinding secrets tus mapping prev u fo po = .ok (prev2, ev)) :
    dictGet? prev2 k = dictGet? prev k := by
  rcases processBinding_state_shape secrets tus mapping prev u fo po prev2 ev h with
    h2 | ⟨c, h2⟩
  · rw [h2]
  · rw [h2]
    exact dictGet?_dictInsert_ne prev u c k hk

theorem processBinding_push_independent (secrets : JsonValue) (tus : List JsonValue)
    (mapping prev : List (JsonValue × JsonValue)) (u : JsonValue)
    (fo : FetchOutcome) (po po' : PushOutcome) :
    Except.map Prod.fst (processBinding secrets tus mapping prev u fo po) =
    Except.map Prod.fst (processBinding secrets tus mapping prev u fo po') := by
  unfold processBinding
  cases fetch_data_from_source secrets fo with
  | error e => rfl
  | ok dq =>
    cases dq with
    | none => rfl
    | some data =>
      cases ht : truthy data with
      | false => simp [ht]
      | true =>
        simp only [ht, if_true]
        cases getMotionInstant data with
        | error e => rfl
        | ok curr =>
          by_cases hn : curr = JsonValue.null
          · simp [hn]
          · simp only [hn, ne_eq, not_false_eq_true, if_true]
            cases hg : dictGet? prev u with
            | none => simp only [hg]
            | some p0 =>
              simp only [hg]
              cases hb : buildDatapush data (motionStep p0 curr).1 with
              | error e => simp only [hb]
              | ok pl =>
                simp only [hb]
                by_cases hT : (dictGet? mapping u).getD .null ∈ tus
                · simp [hT, Except.map]
                · simp [hT, Except.map]

theorem processBinding_ok (secrets : JsonValue) (tus : List JsonValue)
    (mapping prev : List (JsonValue × JsonValue)) (u : JsonValue)
    (fo : FetchOutcome) (po : PushOutcome)
    (hc : credsOk secrets = true) (hu : u ∈ dictKeys prev)
    (hd : dataNoCrash (fetchResult fo) = true) :
    ∃ prev2 ev, processBinding secrets tus mapping prev u fo po = .ok (prev2, ev) := by
  cases hf : fetchResult fo with
  | none =>
    exact ⟨prev, .noData, processBinding_fetchFail secrets tus mapping prev u fo po hc hf⟩
  | some data =>
    rw [hf] at hd
    cases ht : truthy data with
    | false =>
      exact ⟨prev, .noData, processBinding_falsy secrets tus mapping prev u fo po data hc hf ht⟩
    | true =>
      simp only [dataNoCrash, ht, if_true] at hd
      cases hm : getMotionInstant data with
      | error e => rw [hm] at hd; simp at hd
      | ok curr =>
        rw [hm] at hd
        by_cases hn : curr = JsonValue.null
        · subst hn
          exact ⟨prev, .noMotion,
            processBinding_noMotion secrets tus mapping prev u fo po data hc hf ht hm⟩
        · simp only [hn, if_false] at hd
          obtain ⟨p0, hp, _⟩ := dictGet?_of_mem_keys prev u hu
          have hok : exceptOk (buildDatapush data (motionStep p0 curr).1) = true := by
            rw [buildDatapush_exceptOk]
            simpa using hd
          obtain ⟨pl, hb⟩ := exceptOk_exists _ hok
          exact ⟨_, _, processBinding_success secrets tus mapping prev u fo po data curr p0 pl
            hc hf ht hm hn hp hb⟩

theorem runCycleAux_ok (secrets : JsonValue) (tus : List JsonValue)
    (mapping : List (JsonValue × JsonValue)) (env : Nat → FetchOutcome × PushOutcome)
    (sources : List JsonValue) (i : Nat) (prev : List (JsonValue × JsonValue))
    (hc : credsOk secrets = true)
    (hks : ∀ u ∈ sources, u ∈ dictKeys prev)
    (hd : ∀ j, dataNoCrash (fetchResult (env j).1) = true) :
    ∃ prevF evs, runCycleAux secrets tus mapping env sources i prev = .ok (prevF, evs) ∧
      evs.length = sources.length ∧ dictKeys prevF = dictKeys prev := by
  induction sources generalizing i prev with
  | nil => exact ⟨prev, [], rfl, rfl, rfl⟩
  | cons u rest ih =>
    obtain ⟨prev2, ev, h1⟩ :=
      processBinding_ok secrets tus mapping prev u (env i).1 (env i).2 hc
        (hks u (by simp)) (hd i)
    have hkeys : dictKeys prev2 = dictKeys prev :=
      processBinding_keys secrets tus mapping prev u (env i).1 (env i).2 prev2 ev
        (hks u (by simp)) h1
    obtain ⟨prevF, evs, h2, hlen, hkeys2⟩ :=
      ih (i + 1) prev2 (fun w hw => hkeys ▸ hks w (by simp [hw]))
    refine ⟨prevF, ev :: evs, ?_, by simp [hlen], by rw [hkeys2, hkeys]⟩
    unfold runCycleAux
    simp [h1, h2]

theorem mainStartup_cfg (u p : JsonValue) (ss ts : List JsonValue) :
    mainStartup (some (.obj [("user", u), ("password", p),
      ("source_urls", .arr ss), ("tandem_urls", .arr ts)])) =
    (if ss.isEmpty ∨ ts.isEmpty then .exited
     else if ts.length < ss.length then .exited
     else .looping ss ts (dictOfZip ss ts) (initPrevMotion ss)) := by
  cases ss <;> cases ts <;> rfl

theorem dictInsert_fresh (m : List (JsonValue × JsonValue)) (k v : JsonValue)
    (h : k ∉ dictKeys m) : dictInsert m k v = m ++ [(k, v)] := by
  unfold dictInsert
  rw [if_neg]
  intro hany
  obtain ⟨p, hp, he⟩ := List.any_eq_true.mp hany
  exact h ((mem_dictKeys m k).2 ⟨p, hp, of_decide_eq_true he⟩)

theorem foldl_insert_fresh (pairs m : List (JsonValue × JsonValue))
    (hnd : (pairs.map Prod.fst).Nodup)
    (hdis : ∀ p ∈ pairs, p.1 ∉ dictKeys m) :
    pairs.foldl (fun acc kv => dictInsert acc kv.1 kv.2) m = m ++ pairs := by
  induction pairs generalizing m with
  | nil => simp
  | cons q rest ih =>
    simp only [List.foldl_cons]
    rw [dictInsert_fresh m q.1 q.2 (hdis q (by simp))]
    have hnd' : (rest.map Prod.fst).Nodup := (List.nodup_cons.mp (by simpa using hnd)).2
    have hq1 : q.1 ∉ rest.map Prod.fst := (List.nodup_cons.mp (by simpa using hnd)).1
    have hdis' : ∀ p ∈ rest, p.1 ∉ dictKeys (m ++ [(q.1, q.2)]) := by
      intro p hp hmem
      have : dictKeys (m ++ [(q.1, q.2)]) = dictKeys m ++ [q.1] := by
        simp [dictKeys]
      rw [this] at hmem
      rcases List.mem_append.mp hmem with hmem | hmem
      · exact hdis p (by simp [hp]) hmem
      · have : p.1 = q.1 := by simpa using hmem
        exact hq1 (this ▸ List.mem_map.mpr ⟨p, hp, rfl⟩)
    rw [ih (m ++ [(q.1, q.2)]) hnd' hdis']
    simp

theorem dictOfZip_eq_zip (ss ts : List JsonValue) (hnd : ss.Nodup)
    (hlen : ss.length ≤ ts.length) : dictOfZip ss ts = List.zip ss ts := by
  unfold dictOfZip
  have hmap : (List.zip ss ts).map Prod.fst = ss := List.map_fst_zip ss ts hlen
  have := foldl_insert_fresh (List.zip ss ts) [] (by rw [hmap]; exact hnd)
    (by intro p _ hmem; simp [dictKeys] at hmem)
  simpa using this

theorem zip_lookup_pos (ss : List JsonValue) (hnd : ss.Nodup) :
    ∀ (ts : List JsonValue) (i : Nat) (h1 : i < ss.length) (h2 : i < ts.length),
    dictGet? (List.zip ss ts) (ss.get ⟨i, h1⟩) = some (ts.get ⟨i, h2⟩) := by
  induction ss with
  | nil => intro ts i h1 h2; simp at h1
  | cons s rest ih =>
    intro ts i h1 h2
    cases ts with
    | nil => simp at h2
    | cons t trest =>
      cases i with
      | zero => simp [dictGet?, List.find?]
      | succ n =>
        have hn1 : n < rest.length := by simpa using h1
        have hn2 : n < trest.length := by simpa using h2
        have hget : (s :: rest).get ⟨n + 1, h1⟩ = rest.get ⟨n, hn1⟩ := rfl
        have hne : s ≠ rest.get ⟨n, hn1⟩ := by
          intro he
          exact (List.nodup_cons.mp hnd).1 (he ▸ rest.get_mem n hn1)
        have hrec := ih (List.nodup_cons.mp hnd).2 trest n hn1 hn2
        rw [hget, List.zip_cons_cons]
        unfold dictGet? at hrec ⊢
        rw [List.find?_cons_of_neg]
        · exact hrec
        · simpa [List.get_eq_getElem] using hne

/-- A sensorStats field list in which the named field is either absent or
an object (the shape the payload chain of main.py expects). -/
def fieldShapeOk (sfs : List (String × JsonValue)) (f : String) : Bool :=
  match lookupField sfs f with
  | none => true
  | some (JsonValue.obj _) => true
  | some _ => false

/-- The value the payload chain extracts for one field: the field's instant
member when the field is present and carries one, the null marker
otherwise. -/
def instantValue (sfs : List (String × JsonValue)) (f : String) : JsonValue :=
  match lookupField sfs f with
  | some (JsonValue.obj ifs) => (lookupField ifs "instant").getD .null
  | _ => .null

theorem fieldInstant_eval (sfs : List (String × JsonValue)) (f : String)
    (h : fieldShapeOk sfs f = true) :
    fieldInstant (.obj sfs) f = .ok (instantValue sfs f) := by
  cases hl : lookupField sfs f with
  | none =>
    have e1 : pyGetD (.obj sfs) f (.obj []) = .ok (.obj []) := by simp [pyGetD, hl]
    have e2 : pyGetD (.obj []) "instant" JsonValue.null = .ok .null := rfl
    simp [fieldInstant, e1, e2, instantValue, hl]
  | some v =>
    unfold fieldShapeOk at h
    rw [hl] at h
    obtain ⟨ifs, rfl⟩ : ∃ ifs, v = JsonValue.obj ifs := by
      cases v with
      | obj ifs => exact ⟨ifs, rfl⟩
      | null => simp at h
      | bool b => simp at h
      | num n => simp at h
      | str s => simp at h
      | arr xs => simp at h
    have e1 : pyGetD (.obj sfs) f (.obj []) = .ok (.obj ifs) := by simp [pyGetD, hl]
    have e2 : pyGetD (.obj ifs) "instant" JsonValue.null =
        .ok ((lookupField ifs "instant").getD .null) := rfl
    simp [fieldInstant, e1, e2, instantValue, hl]

theorem buildFields_eval (sfs : List (String × JsonValue)) (fields : List String)
    (h : ∀ f ∈ fields, fieldShapeOk sfs f = true) :
    buildFields (.obj sfs) fields = .ok (fields.map (fun f => (f, instantValue sfs f))) := by
  induction fields with
  | nil => rfl
  | cons f rest ih =>
    have h1 := fieldInstant_eval sfs f (h f (by simp))
    have h2 := ih (fun g hg => h g (by simp [hg]))
    simp [buildFields, h1, h2]

theorem lookupField_map_pair (fields : List String) (g : String → JsonValue) (f : String)
    (hf : f ∈ fields) :
    lookupField (fields.map (fun x => (x, g x))) f = some (g f) := by
  induction fields with
  | nil => simp at hf
  | cons a rest ih
  => by_cases ha : a = f
     · subst ha
       simp [lookupField, List.find?]
     · have hf' : f ∈ rest := by
         rcases List.mem_cons.mp hf with rfl | hf'
         · exact absurd rfl ha
         · exact hf'
       have := ih hf'
       unfold lookupField at this ⊢
       rw [List.map_cons, List.find?_cons_of_neg]
       · exact this
       · simp [ha]

/-! The claims. -/

/-- C1: for every source and every reading after the first (the stored
previous value for the source is not the absent/None marker), the motion
flag computed by motion_conversion together with lines 84-88 of main equals
1 exactly when the current raw motion value differs (by value-equality)
from the stored previous value, equals 0 exactly when they are equal, and
the stored previous value is always advanced to the current reading. -/
theorem claim_C1 (stored curr : JsonValue) (h : stored ≠ JsonValue.null) :
    ((motionStep stored curr).1 = 1 ↔ curr ≠ stored) ∧
    ((motionStep stored curr).1 = 0 ↔ curr = stored) ∧
    (motionStep stored curr).2 = curr := by
  unfold motionStep motion_conversion
  simp only [if_neg h]
  by_cases he : curr = stored
  · simp [he]
  · simp [he]

/-- Witness for C1: stored previous 5, current 7 gives flag 1 and the
state advanced to 7. -/
theorem claim_C1_witness :
    JsonValue.num 5 ≠ JsonValue.null ∧
    (((motionStep (.num 5) (.num 7)).1 = 1 ↔ JsonValue.num 7 ≠ JsonValue.num 5) ∧
     ((motionStep (.num 5) (.num 7)).1 = 0 ↔ JsonValue.num 7 = JsonValue.num 5) ∧
     (motionStep (.num 5) (.num 7)).2 = .num 7) :=
  ⟨by decide, claim_C1 (.num 5) (.num 7) (by decide)⟩

/-- C2: at startup every configured source's previous-motion entry is the
absent/None marker, and evaluating lines 84-88 of main against an absent
entry seeds it with the current value so the flag is 0 and the stored
value becomes the current reading, regardless of the raw value. -/
theorem claim_C2 (curr : JsonValue) (srcs : List JsonValue) (u : JsonValue) (h : u ∈ srcs) :
    motionStep JsonValue.null curr = (0, curr) ∧
    dictGet? (initPrevMotion srcs) u = some JsonValue.null := by
  constructor
  · simp [motionStep, motion_conversion]
  · exact initPrevMotion_get srcs u h

/-- Witness for C2: the single configured source "A" with first raw value
7. -/
theorem claim_C2_witness :
    JsonValue.str "A" ∈ [JsonValue.str "A"] ∧
    (motionStep JsonValue.null (.num 7) = (0, .num 7) ∧
     dictGet? (initPrevMotion [.str "A"]) (.str "A") = some JsonValue.null) :=
  ⟨by decide, claim_C2 (.num 7) [.str "A"] (.str "A") (by decide)⟩

/-- C3: for any sensor document whose sensorStats member (defaulted to the
empty object when absent) has any subset of the ten non-motion fields
present (each present field carried as an object, per the expected shape),
the datapush built by lines 91-104 of main always carries the motion key
followed by all ten non-motion keys, the motion key holds the supplied
flag, and every absent field's key is present with the null marker as its
value. -/
theorem claim_C3 (flag : Int) (dfs sfs : List (String × JsonValue))
    (hs : pyGetD (.obj dfs) "sensorStats" (.obj []) = .ok (.obj sfs))
    (hshape : ∀ f ∈ tandemFields, fieldShapeOk sfs f = true) :
    ∃ pl, buildDatapush (.obj dfs) flag = .ok pl ∧
      pl.map Prod.fst = "motion" :: tandemFields ∧
      lookupField pl "motion" = some (.num flag) ∧
      ∀ f ∈ tandemFields, lookupField sfs f = none →
        lookupField pl f = some JsonValue.null := by
  have hb := buildFields_eval sfs tandemFields hshape
  refine ⟨("motion", .num flag) :: tandemFields.map (fun f => (f, instantValue sfs f)),
    ?_, ?_, ?_, ?_⟩
  · simp [buildDatapush, hs, hb]
  · simp only [List.map_cons, List.map_map]
    show ("motion" :: List.map id tandemFields) = "motion" :: tandemFields
    rw [List.map_id]
  · simp [lookupField, List.find?]
  · intro f hf hnone
    have hfm : ("motion" : String) ≠ f := by
      intro he
      rw [← he] at hf
      revert hf
      decide
    unfold lookupField
    rw [List.find?_cons_of_neg]
    · have hmap := lookupField_map_pair tandemFields (fun x => instantValue sfs x) f hf
      unfold lookupField at hmap
      rw [hmap]
      simp [instantValue, hnone]
    · simp [hfm]

/-- Witness for C3: a document carrying only the power field; the payload
holds all eleven keys, motion is 1, and e.g. the absent humidity key maps
to null. -/
theorem claim_C3_witness :
    pyGetD (.obj [("sensorStats", .obj [("power", .obj [("instant", .num 3)])])])
      "sensorStats" (.obj []) = .ok (.obj [("power", .obj [("instant", .num 3)])]) ∧
    (∀ f ∈ tandemFields, fieldShapeOk [("power", .obj [("instant", .num 3)])] f = true) ∧
    ∃ pl, buildDatapush (.obj [("sensorStats", .obj [("power", .obj [("instant", .num 3)])])])
        1 = .ok pl ∧
      pl.map Prod.fst = "motion" :: tandemFields ∧
      lookupField pl "motion" = some (.num 1) ∧
      ∀ f ∈ tandemFields, lookupField [("power", .obj [("instant", .num 3)])] f = none →
        lookupField pl f = some JsonValue.null :=
  ⟨by decide, by decide,
    claim_C3 1 [("sensorStats", .obj [("power", .obj [("instant", .num 3)])])]
      [("power", .obj [("instant", .num 3)])] (by decide) (by decide)⟩

/-- C4: a fetch failure satisfies the no-crash condition, a missing motion
field satisfies it too, and whenever every binding's fetched data satisfies
it (and the credentials are present and every source has a state entry)
the whole cycle runs to completion with every binding attempted - one
event per configured source occurrence - for arbitrary push outcomes, so
fetch failures, missing motion fields and push failures never prevent the
later bindings from being attempted and never abort the cycle. -/
theorem claim_C4 :
    (∀ fo : FetchOutcome, fetchResult fo = none → dataNoCrash (fetchResult fo) = true) ∧
    (∀ data : JsonValue, truthy data = true → getMotionInstant data = .ok .null →
      dataNoCrash (some data) = true) ∧
    (∀ (secrets : JsonValue) (tus : List JsonValue)
      (mapping : List (JsonValue × JsonValue)) (env : Nat → FetchOutcome × PushOutcome)
      (sources : List JsonValue) (i : Nat) (prev : List (JsonValue × JsonValue)),
      credsOk secrets = true →
      (∀ u ∈ sources, u ∈ dictKeys prev) →
      (∀ j, dataNoCrash (fetchResult (env j).1) = true) →
      ∃ prevF evs, runCycleAux secrets tus mapping env sources i prev = .ok (prevF, evs) ∧
        evs.length = sources.length) := by
  refine ⟨?_, ?_, ?_⟩
  · intro fo h
    rw [h]
    rfl
  · intro data ht hm
    simp [dataNoCrash, ht, hm]
  · intro secrets tus mapping env sources i prev hc hks hd
    obtain ⟨prevF, evs, h1, h2, _⟩ :=
      runCycleAux_ok secrets tus mapping env sources i prev hc hks hd
    exact ⟨prevF, evs, h1, h2⟩

/-- Witness for C4: two bindings on the same source; the first fetch is a
connection error and the second succeeds while every push fails, yet the
cycle returns normally with two events. -/
theorem claim_C4_witness :
    credsOk (.obj [("user", .str "u"), ("password", .str "p")]) = true ∧
    (∀ u ∈ [JsonValue.str "A", JsonValue.str "A"],
      u ∈ dictKeys [(JsonValue.str "A", JsonValue.null)]) ∧
    ∃ prevF evs,
      runCycleAux (.obj [("user", .str "u"), ("password", .str "p")])
        [.str "T"] [(.str "A", .str "T")]
        (fun j => (if j = 0 then FetchOutcome.connError
          else .response 200 (some (.obj [("sensorStats",
            .obj [("motion", .obj [("instant", .num 5)])])])), PushOutcome.failure))
        [.str "A", .str "A"] 0 [(.str "A", .null)] = .ok (prevF, evs) ∧
      evs.length = 2 :=
  ⟨by decide, by decide,
    claim_C4.2.2 (.obj [("user", .str "u"), ("password", .str "p")])
      [.str "T"] [(.str "A", .str "T")]
      (fun j => (if j = 0 then FetchOutcome.connError
        else .response 200 (some (.obj [("sensorStats",
          .obj [("motion", .obj [("instant", .num 5)])])])), PushOutcome.failure))
      [.str "A", .str "A"] 0 [(.str "A", .null)]
      (by decide) (by decide)
      (fun j => by
        cases j with
        | zero => decide
        | succ n =>
          show dataNoCrash (fetchResult (.response 200 (some (.obj [("sensorStats",
            .obj [("motion", .obj [("instant", .num 5)])])])))) = true
          decide)⟩

/-- C5: the state table starts with no more entries than configured
sources; a binding whose fetch fails, whose fetched document is falsy
(present but empty, hence lacking the motion field), or whose truthy
document lacks the motion instant, returns the table unchanged; any
binding that returns normally for a source already in the table leaves
the key set - and hence the number of entries - unchanged; and any
binding for source u that returns normally leaves every other source's
entry unchanged, so a source's entry is mutated only by its own
successful motion-carrying read. -/
theorem claim_C5 :
    (∀ srcs : List JsonValue, (initPrevMotion srcs).length ≤ srcs.length) ∧
    (∀ (secrets : JsonValue) (tus : List JsonValue)
      (mapping prev : List (JsonValue × JsonValue)) (u : JsonValue)
      (fo : FetchOutcome) (po : PushOutcome),
      credsOk secrets = true → fetchResult fo = none →
      processBinding secrets tus mapping prev u fo po = .ok (prev, .noData)) ∧
    (∀ (secrets : JsonValue) (tus : List JsonValue)
      (mapping prev : List (JsonValue × JsonValue)) (u : JsonValue)
      (fo : FetchOutcome) (po : PushOutcome) (data : JsonValue),
      credsOk secrets = true → fetchResult fo = some data → truthy data = false →
      processBinding secrets tus mapping prev u fo po = .ok (prev, .noData)) ∧
    (∀ (secrets : JsonValue) (tus : List JsonValue)
      (mapping prev : List (JsonValue × JsonValue)) (u : JsonValue)
      (fo : FetchOutcome) (po : PushOutcome) (data : JsonValue),
      credsOk secrets = true → fetchResult fo = some data → truthy data = true →
      getMotionInstant data = .ok .null →
      processBinding secrets tus mapping prev u fo po = .ok (prev, .noMotion)) ∧
    (∀ (secrets : JsonValue) (tus : List JsonValue)
      (mapping prev : List (JsonValue × JsonValue)) (u : JsonValue)
      (fo : FetchOutcome) (po : PushOutcome) (prev2 : List (JsonValue × JsonValue))
      (ev : BindingEvent),
      u ∈ dictKeys prev →
      processBinding secrets tus mapping prev u fo po = .ok (prev2, ev) →
      dictKeys prev2 = dictKeys prev ∧ prev2.length = prev.length) ∧
    (∀ (secrets : JsonValue) (tus : List JsonValue)
      (mapping prev : List (JsonValue × JsonValue)) (u : JsonValue)
      (fo : FetchOutcome) (po : PushOutcome) (prev2 : List (JsonValue × JsonValue))
      (ev : BindingEvent) (k : JsonValue),
      k ≠ u →
      processBinding secrets tus mapping prev u fo po = .ok (prev2, ev) →
      dictGet? prev2 k = dictGet? prev k) := by
  refine ⟨initPrevMotion_length_le, processBinding_fetchFail, processBinding_falsy,
    processBinding_noMotion, ?_, processBinding_frame⟩
  intro secrets tus mapping prev u fo po prev2 ev hu h
  have hk := processBinding_keys secrets tus mapping prev u fo po prev2 ev hu h
  refine ⟨hk, ?_⟩
  have := congrArg List.length hk
  simpa [dictKeys] using this

/-- Witness for C5: a failed fetch leaves the one-entry table unchanged,
and a successful motion-carrying read of source A (with a failed push)
leaves the unrelated source B's entry untouched. -/
theorem claim_C5_witness :
    credsOk (.obj [("user", .str "u"), ("password", .str "p")]) = true ∧
    fetchResult .connError = none ∧
    processBinding (.obj [("user", .str "u"), ("password", .str "p")])
      [.str "T"] [(.str "A", .str "T")] [(.str "A", .null)] (.str "A")
      .connError .success = .ok ([(.str "A", .null)], .noData) ∧
    JsonValue.str "B" ≠ JsonValue.str "A" ∧
    dictGet? [(JsonValue.str "A", JsonValue.num 7), (JsonValue.str "B", JsonValue.num 9)]
        (.str "B") =
      dictGet? [(JsonValue.str "A", JsonValue.null), (JsonValue.str "B", JsonValue.num 9)]
        (.str "B") :=
  ⟨by decide, by decide,
    claim_C5.2.1 (.obj [("user", .str "u"), ("password", .str "p")])
      [.str "T"] [(.str "A", .str "T")] [(.str "A", .null)] (.str "A")
      .connError .success (by decide) (by decide),
    by decide,
    claim_C5.2.2.2.2.2 (.obj [("user", .str "u"), ("password", .str "p")])
      [.str "T"] [(.str "A", .str "T")]
      [(.str "A", .null), (.str "B", .num 9)] (.str "A")
      (.response 200 (some (.obj [("sensorStats",
        .obj [("motion", .obj [("instant", .num 7)])])]))) .failure
      [(.str "A", .num 7), (.str "B", .num 9)]
      (.pushed 0 [("motion", .num 0), ("power", .null), ("ceilingTemperature", .null),
        ("roomTemperature", .null), ("illuminance", .null), ("brightness", .null),
        ("humidity", .null), ("pressure", .null), ("indoorAirQuality", .null),
        ("co2", .null), ("voc", .null)] (.str "T") .failure)
      (.str "B") (by decide) (by decide)⟩

/-- C6 counterexample: with the duplicated source list [A, A] bound to
destinations [T1, T2], line 68's dict(zip(...)) collapses the duplicate to
a single entry keyed A with the last destination T2, startup accepts the
configuration, and the payload of the source occurrence at position 0 is
pushed to T2 - not to the destination T1 at position 0 - so the binding is
not positional and the two source occurrences do not get distinct bound
destinations. -/
theorem claim_C6_counterexample :
    dictOfZip [.str "A", .str "A"] [.str "T1", .str "T2"] = [(.str "A", .str "T2")] ∧
    mainStartup (some (.obj [("user", .str "u"), ("password", .str "p"),
      ("source_urls", .arr [.str "A", .str "A"]),
      ("tandem_urls", .arr [.str "T1", .str "T2"])])) =
      .looping [.str "A", .str "A"] [.str "T1", .str "T2"]
        [(.str "A", .str "T2")] [(.str "A", .null)] ∧
    runCycle (.obj [("user", .str "u"), ("password", .str "p"),
        ("source_urls", .arr [.str "A", .str "A"]),
        ("tandem_urls", .arr [.str "T1", .str "T2"])])
      [.str "T1", .str "T2"] [(.str "A", .str "T2")]
      (fun _ => (.response 200 (some (.obj [("sensorStats",
        .obj [("motion", .obj [("instant", .num 5)])])])), .success))
      [.str "A", .str "A"] [(.str "A", .null)] =
      .ok ([(.str "A", .num 5)],
        [.pushed 0 [("motion", .num 0), ("power", .null), ("ceilingTemperature", .null),
          ("roomTemperature", .null), ("illuminance", .null), ("brightness", .null),
          ("humidity", .null), ("pressure", .null), ("indoorAirQuality", .null),
          ("co2", .null), ("voc", .null)] (.str "T2") .success,
         .pushed 0 [("motion", .num 0), ("power", .null), ("ceilingTemperature", .null),
          ("roomTemperature", .null), ("illuminance", .null), ("brightness", .null),
          ("humidity", .null), ("pressure", .null), ("indoorAirQuality", .null),
          ("co2", .null), ("voc", .null)] (.str "T2") .success]) ∧
    JsonValue.str "T2" ≠ JsonValue.str "T1" := by
  refine ⟨by decide, by decide, by decide, by decide⟩

/-- C6 amended: bindings are formed through the source-to-destination dict
of line 68, which deduplicates repeated source URLs (the last zipped
destination wins, as the counterexample shows); when the configured source
URLs are pairwise distinct the binding is positional - for every index i
the mapping sends the source at position i to the destination at position
i - and each source then has exactly one bound destination. -/
theorem claim_C6 (ss ts : List JsonValue) (hnd : ss.Nodup)
    (hlen : ss.length ≤ ts.length) (i : Nat) (h1 : i < ss.length) :
    dictGet? (dictOfZip ss ts) (ss.get ⟨i, h1⟩) =
      some (ts.get ⟨i, Nat.lt_of_lt_of_le h1 hlen⟩) := by
  rw [dictOfZip_eq_zip ss ts hnd hlen]
  exact zip_lookup_pos ss hnd ts i h1 (Nat.lt_of_lt_of_le h1 hlen)

/-- Witness for the amended C6: distinct sources [A, B] with destinations
[T1, T2]; position 1's source B is mapped to position 1's destination
T2. -/
theorem claim_C6_witness :
    ([JsonValue.str "A", JsonValue.str "B"].Nodup ∧
      [JsonValue.str "A", JsonValue.str "B"].length ≤
        [JsonValue.str "T1", JsonValue.str "T2"].length) ∧
    dictGet? (dictOfZip [.str "A", .str "B"] [.str "T1", .str "T2"]) (.str "B") =
      some (.str "T2") :=
  ⟨⟨by decide, by decide⟩,
    claim_C6 [.str "A", .str "B"] [.str "T1", .str "T2"] (by decide) (by decide) 1 (by decide)⟩

/-- C7: an absent or undecodable configuration document, an empty source
URL list, an empty tandem URL list, or more source URLs than tandem URLs
all make main return cleanly before the while-loop is entered (and hence
before any fetch or push can happen); in particular 2 sources with 1
destination exit immediately. -/
theorem claim_C7 :
    mainStartup none = .exited ∧
    (∀ (u p : JsonValue) (ss ts : List JsonValue),
      ss = [] ∨ ts = [] ∨ ts.length < ss.length →
      mainStartup (some (.obj [("user", u), ("password", p),
        ("source_urls", .arr ss), ("tandem_urls", .arr ts)])) = .exited) := by
  refine ⟨rfl, ?_⟩
  intro u p ss ts h
  rw [mainStartup_cfg]
  rcases h with rfl | rfl | h
  · simp
  · simp
  · by_cases he : ss.isEmpty ∨ ts.isEmpty
    · rw [if_pos he]
    · rw [if_neg he, if_pos h]

/-- Witness for C7: 2 source URLs and 1 tandem URL exit before cycling. -/
theorem claim_C7_witness :
    (([] : List JsonValue) = [] ∨ [JsonValue.str "T"] = [] ∨
      [JsonValue.str "T"].length < [JsonValue.str "A", JsonValue.str "B"].length) ∧
    mainStartup (some (.obj [("user", .str "u"), ("password", .str "p"),
      ("source_urls", .arr [.str "A", .str "B"]),
      ("tandem_urls", .arr [.str "T"])])) = .exited :=
  ⟨by decide,
    claim_C7.2 (.str "u") (.str "p") [.str "A", .str "B"] [.str "T"] (by decide)⟩

/-- C8: the state table returned by a binding never depends on the push
outcome; after a successful motion evaluation, a failed push still leaves
the source's entry advanced to the current reading; and a binding that
returned normally lets the cycle continue with the remaining bindings. -/
theorem claim_C8 :
    (∀ (secrets : JsonValue) (tus : List JsonValue)
      (mapping prev : List (JsonValue × JsonValue)) (u : JsonValue)
      (fo : FetchOutcome) (po po' : PushOutcome),
      Except.map Prod.fst (processBinding secrets tus mapping prev u fo po) =
      Except.map Prod.fst (processBinding secrets tus mapping prev u fo po')) ∧
    (∀ (secrets : JsonValue) (tus : List JsonValue)
      (mapping prev : List (JsonValue × JsonValue)) (u : JsonValue)
      (fo : FetchOutcome) (data curr p0 : JsonValue) (pl : List (String × JsonValue)),
      credsOk secrets = true → fetchResult fo = some data → truthy data = true →
      getMotionInstant data = .ok curr → curr ≠ JsonValue.null →
      dictGet? prev u = some p0 →
      buildDatapush data (motionStep p0 curr).1 = .ok pl →
      ∃ ev, processBinding secrets tus mapping prev u fo .failure =
          .ok (dictInsert prev u curr, ev) ∧
        dictGet? (dictInsert prev u curr) u = some curr) ∧
    (∀ (secrets : JsonValue) (tus : List JsonValue)
      (mapping : List (JsonValue × JsonValue)) (env : Nat → FetchOutcome × PushOutcome)
      (u : JsonValue) (rest : List JsonValue) (i : Nat)
      (prev prev2 : List (JsonValue × JsonValue)) (ev : BindingEvent),
      processBinding secrets tus mapping prev u (env i).1 (env i).2 = .ok (prev2, ev) →
      runCycleAux secrets tus mapping env (u :: rest) i prev =
        Except.map (fun r => (r.1, ev :: r.2))
          (runCycleAux secrets tus mapping env rest (i + 1) prev2)) := by
  refine ⟨processBinding_push_independent, ?_, ?_⟩
  · intro secrets tus mapping prev u fo data curr p0 pl hc hf ht hm hn hp hb
    refine ⟨if (dictGet? mapping u).getD .null ∈ tus then
        .pushed (motionStep p0 curr).1 pl ((dictGet? mapping u).getD .null) .failure
      else .noTandem (motionStep p0 curr).1 pl, ?_, ?_⟩
    · exact processBinding_success secrets tus mapping prev u fo .failure data curr p0 pl
        hc hf ht hm hn hp hb
    · exact dictGet?_dictInsert_self prev u curr
  · intro secrets tus mapping env u rest i prev prev2 ev h
    conv_lhs => rw [runCycleAux]
    simp only [h]
    cases hr : runCycleAux secrets tus mapping env rest (i + 1) prev2 with
    | error e => rfl
    | ok rr => rfl

/-- Witness for C8: a source with stored previous 5 reads 7 while the push
fails; the entry still advances to 7. -/
theorem claim_C8_witness :
    credsOk (.obj [("user", .str "u"), ("password", .str "p")]) = true ∧
    fetchResult (.response 200 (some (.obj [("sensorStats",
      .obj [("motion", .obj [("instant", .num 7)])])]))) =
      some (.obj [("sensorStats", .obj [("motion", .obj [("instant", .num 7)])])]) ∧
    ∃ ev, processBinding (.obj [("user", .str "u"), ("password", .str "p")])
        [.str "T"] [(.str "A", .str "T")] [(.str "A", .num 5)] (.str "A")
        (.response 200 (some (.obj [("sensorStats",
          .obj [("motion", .obj [("instant", .num 7)])])]))) .failure =
        .ok (dictInsert [(.str "A", .num 5)] (.str "A") (.num 7), ev) ∧
      dictGet? (dictInsert [(.str "A", .num 5)] (.str "A") (.num 7)) (.str "A") =
        some (.num 7) :=
  ⟨by decide, by decide,
    claim_C8.2.1 (.obj [("user", .str "u"), ("password", .str "p")])
      [.str "T"] [(.str "A", .str "T")] [(.str "A", .num 5)] (.str "A")
      (.response 200 (some (.obj [("sensorStats",
        .obj [("motion", .obj [("instant", .num 7)])])])))
      (.obj [("sensorStats", .obj [("motion", .obj [("instant", .num 7)])])])
      (.num 7) (.num 5)
      [("motion", .num 1), ("power", .null), ("ceilingTemperature", .null),
       ("roomTemperature", .null), ("illuminance", .null), ("brightness", .null),
       ("humidity", .null), ("pressure", .null), ("indoorAirQuality", .null),
       ("co2", .null), ("voc", .null)]
      (by decide) (by decide) (by decide) (by decide) (by decide) (by decide) (by decide)⟩

/-- C9: with the credential keys present in the secrets dict,
fetch_data_from_source always returns a definite outcome - the parsed
document or the None failure marker - and the failure marker appears
exactly on a connection error, a 4xx/5xx status, or a body that failed to
parse. -/
theorem claim_C9 (secrets : JsonValue) (o : FetchOutcome) (hc : credsOk secrets = true) :
    fetch_data_from_source secrets o = .ok (fetchResult o) ∧
    (fetchResult o = none ↔
      (o = .connError ∨
        ∃ s b, o = .response s b ∧ ((400 ≤ s ∧ s ≤ 599) ∨ b = none))) := by
  refine ⟨fetch_ok secrets o hc, ?_⟩
  cases o with
  | connError => simp [fetchResult]
  | response s b =>
    simp only [fetchResult]
    by_cases hs : 400 ≤ s ∧ s ≤ 599
    · simp only [hs, if_true]
      simp
      exact ⟨s, b, ⟨rfl, rfl⟩, Or.inl hs⟩
    · simp only [hs, if_false]
      simp
      constructor
      · intro hb
        exact ⟨s, b, ⟨rfl, rfl⟩, Or.inr hb⟩
      · rintro ⟨s', b', ⟨rfl, rfl⟩, hcase | hcase⟩
        · exact absurd hcase hs
        · exact hcase

/-- Witness for C9: a 500 response with a well-formed body still comes
back as the None failure marker. -/
theorem claim_C9_witness :
    credsOk (.obj [("user", .str "u"), ("password", .str "p")]) = true ∧
    fetch_data_from_source (.obj [("user", .str "u"), ("password", .str "p")])
      (.response 500 (some (.obj []))) = .ok (fetchResult (.response 500 (some (.obj [])))) :=
  ⟨by decide,
    (claim_C9 (.obj [("user", .str "u"), ("password", .str "p")])
      (.response 500 (some (.obj []))) (by decide)).1⟩

/-- C10: a successful fetch whose parsed body is falsy - the empty object
in particular - takes the same no-data branch as a fetch failure: the
binding is skipped with the state unchanged and no write attempted, and a
document reaches the motion evaluation only when its parsed body is
truthy. -/
theorem claim_C10 :
    (fetchResult (.response 200 (some (.obj []))) = some (.obj []) ∧
      truthy (.obj []) = false) ∧
    (∀ (secrets : JsonValue) (tus : List JsonValue)
      (mapping prev : List (JsonValue × JsonValue)) (u : JsonValue)
      (fo : FetchOutcome) (po : PushOutcome) (data : JsonValue),
      credsOk secrets = true → fetchResult fo = some data → truthy data = false →
      processBinding secrets tus mapping prev u fo po = .ok (prev, .noData)) ∧
    (∀ (secrets : JsonValue) (tus : List JsonValue)
      (mapping prev : List (JsonValue × JsonValue)) (u : JsonValue) (po : PushOutcome),
      credsOk secrets = true →
      processBinding secrets tus mapping prev u .connError po = .ok (prev, .noData)) := by
  refine ⟨⟨rfl, rfl⟩, processBinding_falsy, ?_⟩
  intro secrets tus mapping prev u po hc
  exact processBinding_fetchFail secrets tus mapping prev u .connError po hc rfl

/-- Witness for C10: the empty-object body is skipped exactly like the
connection-error case, leaving the table unchanged. -/
theorem claim_C10_witness :
    credsOk (.obj [("user", .str "u"), ("password", .str "p")]) = true ∧
    fetchResult (.response 200 (some (.obj []))) = some (.obj []) ∧
    truthy (.obj []) = false ∧
    processBinding (.obj [("user", .str "u"), ("password", .str "p")])
      [.str "T"] [(.str "A", .str "T")] [(.str "A", .null)] (.str "A")
      (.response 200 (some (.obj []))) .success = .ok ([(.str "A", .null)], .noData) :=
  ⟨by decide, by decide, by decide,
    claim_C10.2.1 (.obj [("user", .str "u"), ("password", .str "p")])
      [.str "T"] [(.str "A", .str "T")] [(.str "A", .null)] (.str "A")
      (.response 200 (some (.obj []))) .success (.obj [])
      (by decide) (by decide) (by decide)⟩

end WTEC
